import Mathlib

/-!
Shallow embedding of `src/run_trial.py` (Simon task single-trial runner) and
proofs about it.  The Python module's pure control logic — the deadline
resolver `_deadline_s`, the condition decoding and correct-response rule, the
feedback outcome classifier, the global trial counter, and the phase
sequencing performed by `run_trial` — is translated into executable Lean
definitions.  External collaborators (the `psyflow` `StimUnit` presentation
service and `set_trial_context`) are modelled as opaque data: the per-phase
result dictionaries they merge into the trial record and the captured
response state are inputs to the model, and the calls the core makes into
them are recorded as an explicit trace of events.
-/

namespace Simon

/-- Values a Python duration specification (or any argument handed to
`_deadline_s`) can take: booleans and ints (both satisfy
`isinstance(value, (int, float))` in Python), floats (modelled exactly as
rationals), lists and tuples of further values, and opaque non-numeric
objects (`None`, strings without numeric parses, dicts, ...) on which
`float()` and ordering comparisons raise. -/
inductive PyVal : Type where
  | bool (b : Bool)
  | int (n : Int)
  | float (q : ℚ)
  | list (vs : List PyVal)
  | tuple (vs : List PyVal)
  | obj (tag : String)

/-- Result of a Python expression: a value, or a raised exception. -/
inductive PyResult (α : Type) : Type where
  | ok (a : α)
  | exc (name : String)
deriving DecidableEq

/-- The numeric value of a scalar that satisfies
`isinstance(value, (int, float))`; `none` for everything else. -/
def pyToRat : PyVal → Option ℚ
  | .bool b => some (if b then 1 else 0)
  | .int n => some (n : ℚ)
  | .float q => some q
  | _ => none

/-- `isinstance(value, (int, float))`. -/
def isNumericScalar (v : PyVal) : Bool :=
  (pyToRat v).isSome

/-- `float(v)`: returns the exact numeric value for numeric scalars and
raises for non-numeric content. -/
def pyFloat (v : PyVal) : PyResult ℚ :=
  match pyToRat v with
  | some q => .ok q
  | none => .exc "TypeError"

/-- Binary maximum on exact rationals (written out so that it evaluates in
the kernel). -/
def ratMax (a b : ℚ) : ℚ :=
  if a ≤ b then b else a

/-- The numeric values of a list of scalars, `none` as soon as one element
is not numeric. -/
def pyToRatList : List PyVal → Option (List ℚ)
  | [] => some []
  | v :: vs =>
    match pyToRat v, pyToRatList vs with
    | some q, some qs => some (q :: qs)
    | _, _ => none

/-- `try: float(max(vs)) except Exception: None` for a non-empty collection:
if every element is numeric, `max` and the conversion succeed and yield the
maximum value; any failure inside (`max` raising on incomparable elements,
or `float` raising on the non-numeric maximum) is caught by the bare
`except` and collapses to `none`. -/
def tryMaxFloat (vs : List PyVal) : Option ℚ :=
  match pyToRatList vs with
  | some [] => none
  | some (q :: rest) => some (rest.foldl ratMax q)
  | none => none

/-- `_deadline_s` from `run_trial.py`:

    def _deadline_s(value) -> float | None:
        if isinstance(value, (int, float)):
            return float(value)
        if isinstance(value, (list, tuple)) and value:
            try:
                return float(max(value))
            except Exception:
                return None
        return None

The scalar branch's `float(value)` sits outside any `try`, so it is modelled
as propagating a raised exception (`PyResult.exc`); the collection branch is
fully guarded. -/
def deadline_s (value : PyVal) : PyResult (Option ℚ) :=
  if isNumericScalar value then
    match pyFloat value with
    | .ok q => .ok (some q)
    | .exc e => .exc e
  else
    match value with
    | .list vs => if vs.isEmpty then .ok none else .ok (tryMaxFloat vs)
    | .tuple vs => if vs.isEmpty then .ok none else .ok (tryMaxFloat vs)
    | _ => .ok none

/-- The value `_deadline_s` returns; total because `deadline_s` never
actually raises (theorem `deadline_total`). -/
def deadline_opt (value : PyVal) : Option ℚ :=
  match deadline_s value with
  | .ok o => o
  | .exc _ => none

/-- `condition.split("_")` on the underlying character list: Python
`str.split` with an explicit single-character separator.  `"".split("_")`
is `[""]`, `"a_b".split("_")` is `["a", "b"]`, `"_".split("_")` is
`["", ""]`. -/
def splitUnd : List Char → List (List Char)
  | [] => [[]]
  | c :: rest =>
    let gs := splitUnd rest
    if c = '_' then [] :: gs
    else
      match gs with
      | g :: gs' => (c :: g) :: gs'
      | [] => [[c]]

/-- `condition.split("_")` as a function on strings. -/
def pySplit (s : String) : List String :=
  (splitUnd s.toList).map fun cs => String.mk cs

/-- `d.get(k)` on a Python dict modelled as an insertion-ordered
association list: the value at the first (unique) matching key, `None`
(here `Option.none`) when the key is absent. -/
def dictGet (d : List (String × α)) (k : String) : Option α :=
  (d.find? fun p => p.1 == k).map fun p => p.2

/-- `d[k] = v` on the association-list dict model: overwrite in place when
the key exists, append otherwise (Python dicts preserve insertion order). -/
def dictInsert (d : List (String × α)) (k : String) (v : α) : List (String × α) :=
  if d.any fun p => p.1 == k then
    d.map fun p => if p.1 == k then (k, v) else p
  else
    d ++ [(k, v)]

/-- `d.update(kvs)`: insert every pair of `kvs` into `d`, in order. -/
def dictUpdate (d : List (String × α)) (kvs : List (String × α)) : List (String × α) :=
  kvs.foldl (fun acc p => dictInsert acc p.1 p.2) d

/-- The settings bundle fields `run_trial` reads.  Response keys are
strings; trigger identifiers stay abstract (`τ`); durations are arbitrary
Python values fed to `_deadline_s` / passed through to `show`. -/
structure Settings (τ : Type) where
  left_key : String
  right_key : String
  key_list : List String
  fixation_duration : PyVal
  stim_duration : PyVal
  feedback_duration : PyVal
  iti_duration : PyVal
  triggers : List (String × τ)

/-- The keyword arguments `run_trial` passes to `set_trial_context` for a
phase.  `task_factors` values are optional strings (`block_idx` may be
`None`). -/
structure TrialContext : Type where
  trial_id : ℕ
  phase : String
  deadline_s : Option ℚ
  valid_keys : List String
  block_id : Option String
  condition_id : String
  task_factors : List (String × Option String)
  stim_id : String
deriving DecidableEq

/-- The behaviour of the external `StimUnit` collaborators during one
trial, which the core cannot influence: the key/value data each phase's
`to_dict` merges into the trial record, and the response state
(`get_state("response", False)` / `get_state("hit", False)`, used by the
feedback branch via their truthiness) captured by the response phase. -/
structure TrialEnv (ρ : Type) where
  fixData : List (String × ρ)
  stimData : List (String × ρ)
  feedbackData : List (String × ρ)
  itiData : List (String × ρ)
  response : Bool
  hit : Bool

/-- A value stored in the trial record: one of the strings the core itself
writes, or opaque phase-result data from a `StimUnit`. -/
inductive RecVal (ρ : Type) : Type where
  | str (s : String)
  | ext (r : ρ)
deriving DecidableEq

/-- One call the core makes into its external collaborators, in program
order: a `set_trial_context` call, a `show` presentation (stimuli added via
`add_stim`, raw duration argument, onset trigger), or the response phase's
`capture_response` with its full argument list. -/
inductive TraceEvent (σ τ : Type) : Type where
  | setContext (ctx : TrialContext)
  | showStim (unit_label : String) (stims : List (Option σ)) (duration : PyVal)
      (onset_trigger : Option τ)
  | captureResponse (unit_label : String) (stims : List (Option σ)) (keys : List String)
      (correct_keys : String) (duration : PyVal)
      (response_trigger : List (String × Option τ)) (onset_trigger : Option τ)
      (terminate_on_response : Bool)

/-- Everything a successful `run_trial` call produces: the assigned trial
id, the decoded factors and correct response, the ordered trace of calls
into the collaborators, and the returned `trial_data` record. -/
structure TrialRun (σ τ ρ : Type) : Type where
  trial_id : ℕ
  stim_color : String
  stim_position : String
  correct_response : String
  trace : List (TraceEvent σ τ)
  record : List (String × RecVal ρ)

/-- The exception `run_trial` raises: the `ValueError` from unpacking
`condition.split("_")` into exactly two names. -/
inductive PyErr : Type where
  | valueError
deriving DecidableEq

/-- `_next_trial_id`: increment the process-wide counter and return the
new value, as state passing.  First component: new counter; second: the
id handed out. -/
def next_trial_id (counter : ℕ) : ℕ × ℕ :=
  (counter + 1, counter + 1)

/-- The feedback-selection branch of `run_trial` (lines 113–121): from the
captured response state, pick the feedback stimulus (a `stim_bank.get`
lookup) and feedback trigger (a `settings.triggers.get` lookup). -/
def classify_feedback (stim_bank : List (String × σ)) (triggers : List (String × τ))
    (response hit : Bool) : Option σ × Option τ :=
  if response && hit then
    (dictGet stim_bank "correct_feedback", dictGet triggers "feedback_correct_response")
  else if response && !hit then
    (dictGet stim_bank "incorrect_feedback", dictGet triggers "feedback_incorrect_response")
  else
    (dictGet stim_bank "no_response_feedback", dictGet triggers "feedback_no_response")

/-- Opaque phase-result data as record values. -/
def extData (d : List (String × ρ)) : List (String × RecVal ρ) :=
  d.map fun p => (p.1, RecVal.ext p.2)

/-- The success branch of `run_trial` (everything after the
`condition.split("_")` unpacking succeeds with factors `stim_color`,
`stim_position`), given the already-assigned trial id.  Builds the trace of
collaborator calls in program order and the `trial_data` record:
`{"condition": condition}` seeded first, then updated with the decoded
factors and correct response, then merged with each phase's `to_dict`
output in phase order. -/
def mk_run (settings : Settings τ) (condition : String) (stim_bank : List (String × σ))
    (block_id block_idx : Option String) (env : TrialEnv ρ) (trial_id : ℕ)
    (stim_color stim_position : String) : TrialRun σ τ ρ :=
  let correct_response :=
    if stim_color = "red" then settings.left_key else settings.right_key
  let fb := classify_feedback stim_bank settings.triggers env.response env.hit
  { trial_id := trial_id
    stim_color := stim_color
    stim_position := stim_position
    correct_response := correct_response
    trace := [
      .setContext
        { trial_id := trial_id
          phase := "pre_stim_fixation"
          deadline_s := deadline_opt settings.fixation_duration
          valid_keys := settings.key_list
          block_id := block_id
          condition_id := condition
          task_factors := [("condition", some condition),
            ("stage", some "pre_stim_fixation"), ("stim_color", some stim_color),
            ("stim_position", some stim_position), ("block_idx", block_idx)]
          stim_id := "fixation" },
      .showStim "fixation" [dictGet stim_bank "fixation"] settings.fixation_duration
        (dictGet settings.triggers "fixation_onset"),
      .setContext
        { trial_id := trial_id
          phase := "simon_response"
          deadline_s := deadline_opt settings.stim_duration
          valid_keys := settings.key_list
          block_id := block_id
          condition_id := condition
          task_factors := [("condition", some condition),
            ("stage", some "simon_response"), ("stim_color", some stim_color),
            ("stim_position", some stim_position),
            ("correct_key", some correct_response), ("block_idx", block_idx)]
          stim_id := condition },
      .captureResponse "stimulus" [dictGet stim_bank condition] settings.key_list
        correct_response settings.stim_duration
        [(settings.left_key, dictGet settings.triggers "left_key_press"),
         (settings.right_key, dictGet settings.triggers "right_key_press")]
        (dictGet settings.triggers "stim_onset") true,
      .showStim "feedback" [fb.1] settings.feedback_duration fb.2,
      .showStim "iti" [] settings.iti_duration none ]
    record :=
      dictUpdate (dictUpdate (dictUpdate (dictUpdate
        (dictUpdate [("condition", RecVal.str condition)]
          [("stim_color", .str stim_color), ("stim_position", .str stim_position),
           ("correct_response", .str correct_response)])
        (extData env.fixData)) (extData env.stimData)) (extData env.feedbackData))
        (extData env.itiData) }

/-- `run_trial` from `run_trial.py`, as a function of the process-wide trial
counter.  The trial id is assigned (counter incremented) before the
condition is decoded, so the counter advances even when the
`condition.split("_")` unpacking raises `ValueError`; in that case no
phase runs and no trial record is produced. -/
def run_trial (settings : Settings τ) (condition : String) (stim_bank : List (String × σ))
    (block_id block_idx : Option String) (env : TrialEnv ρ) (counter : ℕ) :
    ℕ × Except PyErr (TrialRun σ τ ρ) :=
  ((next_trial_id counter).1,
    match pySplit condition with
    | [stim_color, stim_position] =>
      .ok (mk_run settings condition stim_bank block_id block_idx env
        (next_trial_id counter).2 stim_color stim_position)
    | _ => .error .valueError)

/-- The arguments of one `run_trial` invocation (everything except the
counter), used to state properties of sequences of trials. -/
structure TrialInput (σ τ ρ : Type) : Type where
  settings : Settings τ
  condition : String
  stim_bank : List (String × σ)
  block_id : Option String
  block_idx : Option String
  env : TrialEnv ρ

/-- The trial ids assigned by a sequence of `run_trial` invocations,
threading the process-wide counter through. -/
def trial_ids : List (TrialInput σ τ ρ) → ℕ → List ℕ
  | [], _ => []
  | i :: rest, counter =>
    let c' := (run_trial i.settings i.condition i.stim_bank i.block_id i.block_idx
      i.env counter).1
    c' :: trial_ids rest c'

/-- The unit labels of the phases run, in trace order (`set_trial_context`
calls are not phase executions). -/
def phase_labels (t : List (TraceEvent σ τ)) : List String :=
  t.filterMap fun e =>
    match e with
    | .showStim l _ _ _ => some l
    | .captureResponse l _ _ _ _ _ _ _ => some l
    | .setContext _ => none

/-- The contexts passed to `set_trial_context`, in trace order. -/
def trace_contexts (t : List (TraceEvent σ τ)) : List TrialContext :=
  t.filterMap fun e =>
    match e with
    | .setContext c => some c
    | _ => none

/-- The stimulus arguments (results of `stim_bank` lookups) handed to each
phase via `add_stim`, in phase order. -/
def shown_stims (t : List (TraceEvent σ τ)) : List (List (Option σ)) :=
  t.filterMap fun e =>
    match e with
    | .showStim _ ss _ _ => some ss
    | .captureResponse _ ss _ _ _ _ _ _ => some ss
    | .setContext _ => none

/-- The onset-trigger argument of each phase, in phase order. -/
def onset_triggers (t : List (TraceEvent σ τ)) : List (Option τ) :=
  t.filterMap fun e =>
    match e with
    | .showStim _ _ _ tr => some tr
    | .captureResponse _ _ _ _ _ _ tr _ => some tr
    | .setContext _ => none

/-- `(phase, valid_keys)` for every context built during the trial. -/
def context_key_summaries (r : Except PyErr (TrialRun σ τ ρ)) :
    List (String × List String) :=
  match r with
  | .ok run => (trace_contexts run.trace).map fun c => (c.phase, c.valid_keys)
  | .error _ => []

/-- The keys of the returned trial record (empty when the trial raised). -/
def result_record_keys (r : Except PyErr (TrialRun σ τ ρ)) : List String :=
  match r with
  | .ok run => run.record.map fun p => p.1
  | .error _ => []

/-- The keys the external phase results may write into the record. -/
def env_keys (env : TrialEnv ρ) : List String :=
  (env.fixData ++ env.stimData ++ env.feedbackData ++ env.itiData).map fun p => p.1

/-- A concrete settings bundle (the shape `config.yaml` produces for the
Simon task) used to evaluate the model at specific inputs. -/
def settings0 : Settings String :=
  { left_key := "f"
    right_key := "j"
    key_list := ["f", "j"]
    fixation_duration := .float 1
    stim_duration := .list [.float 1, .float (mkRat 5 2), .float (mkRat 1 2)]
    feedback_duration := .float 1
    iti_duration := .float 1
    triggers := [("fixation_onset", "T1"), ("stim_onset", "T2"),
      ("left_key_press", "T3"), ("right_key_press", "T4"),
      ("feedback_correct_response", "T5"), ("feedback_incorrect_response", "T6"),
      ("feedback_no_response", "T7")] }

/-- A concrete stimulus bank with the fixed names plus some conditions. -/
def bank0 : List (String × String) :=
  [("fixation", "FIX"), ("red_left", "RL"), ("blue_left", "BL"),
   ("green_left", "GL"), ("correct_feedback", "FB+"),
   ("incorrect_feedback", "FB-"), ("no_response_feedback", "FB0")]

/-- A concrete collaborator environment: empty phase-result dictionaries, a
correct response captured. -/
def env0 : TrialEnv String :=
  { fixData := [], stimData := [], feedbackData := [], itiData := []
    response := true, hit := true }

/-- A degenerate settings bundle with an empty trigger table, for
exercising missing-lookup behaviour. -/
def settings1 : Settings String :=
  { left_key := "f"
    right_key := "j"
    key_list := ["f", "j"]
    fixation_duration := .float 1
    stim_duration := .float 2
    feedback_duration := .float 1
    iti_duration := .float 1
    triggers := [] }

/-- A collaborator environment in which no response occurred. -/
def env1 : TrialEnv String :=
  { fixData := [], stimData := [], feedbackData := [], itiData := []
    response := false, hit := false }

lemma foldl_ratMax_mem (q : ℚ) (rest : List ℚ) :
    rest.foldl ratMax q ∈ q :: rest := by
  induction rest generalizing q with
  | nil => simp
  | cons b bs ih =>
    simp only [List.foldl_cons]
    rcases List.mem_cons.mp (ih (ratMax q b)) with h | h
    · rw [h, ratMax]
      split
      · simp
      · simp
    · simp [h]

lemma le_foldl_ratMax (q : ℚ) (rest : List ℚ) :
    ∀ x ∈ q :: rest, x ≤ rest.foldl ratMax q := by
  induction rest generalizing q with
  | nil => simp
  | cons b bs ih =>
    intro x hx
    simp only [List.foldl_cons]
    have hq : q ≤ ratMax q b := by rw [ratMax]; split <;> simp [*]
    have hb : b ≤ ratMax q b := by rw [ratMax]; split <;> simp [le_of_not_le, *]
    have hstep : ratMax q b ≤ bs.foldl ratMax (ratMax q b) :=
      ih (ratMax q b) (ratMax q b) (List.mem_cons_self _ _)
    rcases List.mem_cons.mp hx with h | h
    · subst h; exact le_trans hq hstep
    · rcases List.mem_cons.mp h with h' | h'
      · subst h'; exact le_trans hb hstep
      · exact ih (ratMax q b) x (List.mem_cons_of_mem _ h')

lemma tryMaxFloat_spec (vs : List PyVal) (qs : List ℚ)
    (h : pyToRatList vs = some qs) (hne : vs ≠ []) :
    ∃ m, tryMaxFloat vs = some m ∧ m ∈ qs ∧ ∀ x ∈ qs, x ≤ m := by
  cases vs with
  | nil => exact absurd rfl hne
  | cons v vs' =>
    simp only [pyToRatList] at h
    cases hv : pyToRat v with
    | none => simp [hv] at h
    | some q =>
      cases hvs : pyToRatList vs' with
      | none => simp [hv, hvs] at h
      | some qs' =>
        simp only [hv, hvs, Option.some.injEq] at h
        refine ⟨qs'.foldl ratMax q, ?_, ?_, ?_⟩
        · simp [tryMaxFloat, pyToRatList, hv, hvs]
        · exact h ▸ foldl_ratMax_mem q qs'
        · exact h ▸ le_foldl_ratMax q qs'

/-- Claim C4: deadline resolution.  A numeric scalar (int, float, and also
bool, a Python int subtype) resolves to exactly its own value; a non-empty
collection whose elements are all numeric resolves to the maximum of their
values; an empty collection, a collection with non-numeric content, or a
non-numeric scalar resolve softly to no deadline (`none`), with no
exception escaping. -/
theorem deadline_resolution (b : Bool) (n : ℤ) (q : ℚ) (tag : String)
    (vs : List PyVal) (qs : List ℚ) :
    deadline_s (.int n) = .ok (some (n : ℚ)) ∧
    deadline_s (.float q) = .ok (some q) ∧
    deadline_s (.bool b) = .ok (some (if b then 1 else 0)) ∧
    (pyToRatList vs = some qs → vs ≠ [] →
      ∃ m, m ∈ qs ∧ (∀ x ∈ qs, x ≤ m) ∧
        deadline_s (.list vs) = .ok (some m) ∧
        deadline_s (.tuple vs) = .ok (some m)) ∧
    deadline_s (.list []) = .ok none ∧
    deadline_s (.tuple []) = .ok none ∧
    (pyToRatList vs = none →
      deadline_s (.list vs) = .ok none ∧ deadline_s (.tuple vs) = .ok none) ∧
    deadline_s (.obj tag) = .ok none := by
  refine ⟨rfl, rfl, by cases b <;> rfl, ?_, rfl, rfl, ?_, rfl⟩
  · intro h hne
    obtain ⟨m, hm, hmem, hbound⟩ := tryMaxFloat_spec vs qs h hne
    refine ⟨m, hmem, hbound, ?_, ?_⟩ <;>
      · simp only [deadline_s, isNumericScalar, pyToRat, Option.isSome_none,
          Bool.false_eq_true, if_false, List.isEmpty_iff]
        simp [hne, hm]
  · intro h
    constructor <;>
      · simp only [deadline_s, isNumericScalar, pyToRat, Option.isSome_none,
          Bool.false_eq_true, if_false]
        split <;> simp [tryMaxFloat, h]

/-- Claim C10: `_deadline_s` is total — on every input it returns a value
(a rational "float" or `none`) and never lets an exception escape: the only
conversion outside the `try`/`except` is `float(value)` on a value the
`isinstance(value, (int, float))` guard has already checked. -/
theorem deadline_total (v : PyVal) : ∃ o, deadline_s v = .ok o := by
  cases v with
  | bool b => exact ⟨some (if b then 1 else 0), by cases b <;> rfl⟩
  | int n => exact ⟨some (n : ℚ), rfl⟩
  | float q => exact ⟨some q, rfl⟩
  | list vs =>
    simp only [deadline_s, isNumericScalar, pyToRat, Option.isSome_none,
      Bool.false_eq_true, if_false]
    split <;> exact ⟨_, rfl⟩
  | tuple vs =>
    simp only [deadline_s, isNumericScalar, pyToRat, Option.isSome_none,
      Bool.false_eq_true, if_false]
    split <;> exact ⟨_, rfl⟩
  | obj tag => exact ⟨none, rfl⟩

lemma run_trial_ok (settings : Settings τ) (condition : String)
    (stim_bank : List (String × σ)) (b bi : Option String) (env : TrialEnv ρ)
    (counter : ℕ) (c p : String) (h : pySplit condition = [c, p]) :
    (run_trial settings condition stim_bank b bi env counter).2 =
      .ok (mk_run settings condition stim_bank b bi env (counter + 1) c p) := by
  simp [run_trial, next_trial_id, h]

lemma mk_run_correct_response (settings : Settings τ) (condition : String)
    (stim_bank : List (String × σ)) (b bi : Option String) (env : TrialEnv ρ)
    (tid : ℕ) (c p : String) :
    (mk_run settings condition stim_bank b bi env tid c p).correct_response =
      if c = "red" then settings.left_key else settings.right_key := rfl

lemma mk_run_trial_id (settings : Settings τ) (condition : String)
    (stim_bank : List (String × σ)) (b bi : Option String) (env : TrialEnv ρ)
    (tid : ℕ) (c p : String) :
    (mk_run settings condition stim_bank b bi env tid c p).trial_id = tid := rfl

/-- Witness for C4 at the spec's own example `[1.0, 2.5, 0.5]`: the
resolved deadline is `2.5`. -/
theorem deadline_resolution_witness :
    pyToRatList [PyVal.float 1, .float (mkRat 5 2), .float (mkRat 1 2)] =
      some [1, mkRat 5 2, mkRat 1 2] ∧
    ([PyVal.float 1, .float (mkRat 5 2), .float (mkRat 1 2)] : List PyVal) ≠ [] ∧
    ∃ m, m ∈ [(1 : ℚ), mkRat 5 2, mkRat 1 2] ∧
      (∀ x ∈ [(1 : ℚ), mkRat 5 2, mkRat 1 2], x ≤ m) ∧
      deadline_s (.list [.float 1, .float (mkRat 5 2), .float (mkRat 1 2)]) =
        .ok (some m) ∧
      deadline_s (.tuple [.float 1, .float (mkRat 5 2), .float (mkRat 1 2)]) =
        .ok (some m) :=
  ⟨by decide, List.cons_ne_nil _ _,
    (deadline_resolution true 0 0 "x"
      [.float 1, .float (mkRat 5 2), .float (mkRat 1 2)]
      [1, mkRat 5 2, mkRat 1 2]).2.2.2.1 (by decide) (List.cons_ne_nil _ _)⟩


/-- Claim C1: for a well-formed condition label decoding into factors
`[stim_color, stim_position]` with `stim_color ∈ {red, blue}`, `run_trial`
derives the correct response as `settings.left_key` for red and
`settings.right_key` for blue; when the two keys are distinct, the correct
response equals `left_key` **iff** the color is red. -/
theorem correct_response_rule (settings : Settings τ) (condition : String)
    (stim_bank : List (String × σ)) (b bi : Option String) (env : TrialEnv ρ)
    (counter : ℕ) (c p : String)
    (hsplit : pySplit condition = [c, p]) (hc : c = "red" ∨ c = "blue") :
    ∃ run : TrialRun σ τ ρ,
      (run_trial settings condition stim_bank b bi env counter).2 = .ok run ∧
      (c = "red" → run.correct_response = settings.left_key) ∧
      (c = "blue" → run.correct_response = settings.right_key) ∧
      (settings.left_key ≠ settings.right_key →
        (run.correct_response = settings.left_key ↔ c = "red")) := by
  refine ⟨_, run_trial_ok settings condition stim_bank b bi env counter c p hsplit,
    ?_, ?_, ?_⟩ <;> rw [mk_run_correct_response]
  · intro h; simp [h]
  · intro h; subst h
    rw [if_neg (by decide)]
  · intro hne
    rcases hc with h | h <;> subst h
    · simp
    · rw [if_neg (by decide)]
      constructor
      · intro h; exact absurd h.symm hne
      · intro h; exact absurd h (by decide)

/-- Witness for C1: under `"red_left"` the correct response is the left
key. -/
theorem correct_response_rule_witness :
    pySplit "red_left" = ["red", "left"] ∧
    ("red" = "red" ∨ "red" = "blue") ∧
    ∃ run : TrialRun String String String,
      (run_trial settings0 "red_left" bank0 none none env0 0).2 = .ok run ∧
      ("red" = "red" → run.correct_response = settings0.left_key) ∧
      (settings0.left_key ≠ settings0.right_key →
        (run.correct_response = settings0.left_key ↔ "red" = "red")) := by
  refine ⟨by decide, Or.inl rfl, ?_⟩
  obtain ⟨run, hok, h1, _h2, h3⟩ :=
    correct_response_rule settings0 "red_left" bank0 none none env0 0 "red" "left"
      (by decide) (Or.inl rfl)
  exact ⟨run, hok, h1, h3⟩

/-- Claim C2: the outcome classifier run after the response phase selects
exactly one of the three feedback stimulus/trigger pairs — correct feedback
for `(response, hit)`, incorrect feedback for `(response, ¬hit)`, and
no-response feedback when no response occurred. -/
theorem feedback_outcome_selection (settings : Settings τ) (condition : String)
    (stim_bank : List (String × σ)) (b bi : Option String) (env : TrialEnv ρ)
    (counter : ℕ) (c p : String) (hsplit : pySplit condition = [c, p]) :
    ∃ (run : TrialRun σ τ ρ) (s : Option σ) (t : Option τ),
      (run_trial settings condition stim_bank b bi env counter).2 = .ok run ∧
      run.trace[4]? = some (.showStim "feedback" [s] settings.feedback_duration t) ∧
      (env.response = true → env.hit = true →
        s = dictGet stim_bank "correct_feedback" ∧
        t = dictGet settings.triggers "feedback_correct_response") ∧
      (env.response = true → env.hit = false →
        s = dictGet stim_bank "incorrect_feedback" ∧
        t = dictGet settings.triggers "feedback_incorrect_response") ∧
      (env.response = false →
        s = dictGet stim_bank "no_response_feedback" ∧
        t = dictGet settings.triggers "feedback_no_response") := by
  refine ⟨_,
    (classify_feedback stim_bank settings.triggers env.response env.hit).1,
    (classify_feedback stim_bank settings.triggers env.response env.hit).2,
    run_trial_ok settings condition stim_bank b bi env counter c p hsplit,
    rfl, ?_, ?_, ?_⟩
  · intro hr hh; rw [classify_feedback, hr, hh]; exact ⟨rfl, rfl⟩
  · intro hr hh; rw [classify_feedback, hr, hh]; exact ⟨rfl, rfl⟩
  · intro hr; rw [classify_feedback, hr]; exact ⟨rfl, rfl⟩

/-- Witness for C2: a correct left-key response under `"red_left"` selects
the correct-feedback pair. -/
theorem feedback_outcome_selection_witness :
    pySplit "red_left" = ["red", "left"] ∧
    ∃ (run : TrialRun String String String) (s : Option String) (t : Option String),
      (run_trial settings0 "red_left" bank0 none none env0 0).2 = .ok run ∧
      run.trace[4]? = some (.showStim "feedback" [s] settings0.feedback_duration t) ∧
      (env0.response = true → env0.hit = true →
        s = dictGet bank0 "correct_feedback" ∧
        t = dictGet settings0.triggers "feedback_correct_response") ∧
      (env0.response = true → env0.hit = false →
        s = dictGet bank0 "incorrect_feedback" ∧
        t = dictGet settings0.triggers "feedback_incorrect_response") ∧
      (env0.response = false →
        s = dictGet bank0 "no_response_feedback" ∧
        t = dictGet settings0.triggers "feedback_no_response") :=
  ⟨by decide,
    feedback_outcome_selection settings0 "red_left" bank0 none none env0 0
      "red" "left" (by decide)⟩

/-- Claim C6: the four phases run strictly in the order fixation →
stimulus/response → feedback → inter-trial interval, and the feedback
phase's stimulus and trigger are computed (by the classifier) from the
response state captured by the response phase, which sits strictly earlier
in the trace. -/
theorem phase_sequencing (settings : Settings τ) (condition : String)
    (stim_bank : List (String × σ)) (b bi : Option String) (env : TrialEnv ρ)
    (counter : ℕ) (c p : String) (hsplit : pySplit condition = [c, p]) :
    ∃ run : TrialRun σ τ ρ,
      (run_trial settings condition stim_bank b bi env counter).2 = .ok run ∧
      phase_labels run.trace = ["fixation", "stimulus", "feedback", "iti"] ∧
      run.trace[3]? = some (.captureResponse "stimulus" [dictGet stim_bank condition]
        settings.key_list run.correct_response settings.stim_duration
        [(settings.left_key, dictGet settings.triggers "left_key_press"),
         (settings.right_key, dictGet settings.triggers "right_key_press")]
        (dictGet settings.triggers "stim_onset") true) ∧
      run.trace[4]? = some (.showStim "feedback"
        [(classify_feedback stim_bank settings.triggers env.response env.hit).1]
        settings.feedback_duration
        (classify_feedback stim_bank settings.triggers env.response env.hit).2) ∧
      run.trace[5]? = some (.showStim "iti" [] settings.iti_duration none) := by
  exact ⟨_, run_trial_ok settings condition stim_bank b bi env counter c p hsplit,
    rfl, rfl, rfl, rfl⟩

/-- Witness for C6 on a concrete trial. -/
theorem phase_sequencing_witness :
    pySplit "red_left" = ["red", "left"] ∧
    ∃ run : TrialRun String String String,
      (run_trial settings0 "red_left" bank0 none none env0 0).2 = .ok run ∧
      phase_labels run.trace = ["fixation", "stimulus", "feedback", "iti"] ∧
      run.trace[3]? = some (.captureResponse "stimulus" [dictGet bank0 "red_left"]
        settings0.key_list run.correct_response settings0.stim_duration
        [(settings0.left_key, dictGet settings0.triggers "left_key_press"),
         (settings0.right_key, dictGet settings0.triggers "right_key_press")]
        (dictGet settings0.triggers "stim_onset") true) ∧
      run.trace[4]? = some (.showStim "feedback"
        [(classify_feedback bank0 settings0.triggers env0.response env0.hit).1]
        settings0.feedback_duration
        (classify_feedback bank0 settings0.triggers env0.response env0.hit).2) ∧
      run.trace[5]? = some (.showStim "iti" [] settings0.iti_duration none) :=
  ⟨by decide,
    phase_sequencing settings0 "red_left" bank0 none none env0 0 "red" "left"
      (by decide)⟩

lemma trial_ids_eq (inputs : List (TrialInput σ τ ρ)) (counter : ℕ) :
    trial_ids inputs counter = List.range' (counter + 1) inputs.length := by
  induction inputs generalizing counter with
  | nil => rfl
  | cons i rest ih =>
    show (counter + 1) :: trial_ids rest (counter + 1) =
      List.range' (counter + 1) (rest.length + 1)
    rw [ih (counter + 1), List.range'_succ]

/-- Claim C5: across any `N` sequential `run_trial` invocations starting
from the initial counter state `0`, the assigned trial identifiers are
exactly `1, 2, ..., N` in order (no gaps or repeats, strictly increasing);
each invocation advances the counter by exactly one (never decremented or
reset), and a successful trial's assigned id is the incremented counter
value. -/
theorem trial_id_allocation :
    (∀ inputs : List (TrialInput σ τ ρ),
      trial_ids inputs 0 = List.range' 1 inputs.length) ∧
    (∀ inputs : List (TrialInput σ τ ρ),
      List.Pairwise (· < ·) (trial_ids inputs 0)) ∧
    (∀ (i : TrialInput σ τ ρ) (c : ℕ),
      (run_trial i.settings i.condition i.stim_bank i.block_id i.block_idx
        i.env c).1 = c + 1) ∧
    (∀ (i : TrialInput σ τ ρ) (c : ℕ) (run : TrialRun σ τ ρ),
      (run_trial i.settings i.condition i.stim_bank i.block_id i.block_idx
        i.env c).2 = .ok run → run.trial_id = c + 1) := by
  refine ⟨fun inputs => trial_ids_eq inputs 0, ?_, fun i c => rfl, ?_⟩
  · intro inputs
    rw [trial_ids_eq inputs 0]
    exact List.pairwise_lt_range' 1 inputs.length
  · intro i c run hok
    rcases h : pySplit i.condition with _ | ⟨a, _ | ⟨b, _ | ⟨d, rest⟩⟩⟩ <;>
      simp [run_trial, next_trial_id, h] at hok
    rw [← hok]
    exact mk_run_trial_id i.settings i.condition i.stim_bank i.block_id i.block_idx
      i.env (c + 1) a b

/-- Witness for C5: two sequential trials from counter `0` get ids `[1, 2]`,
and the first trial's returned run carries id `0 + 1`. -/
theorem trial_id_allocation_witness :
    trial_ids [(⟨settings0, "red_left", bank0, none, none, env0⟩ :
        TrialInput String String String),
      ⟨settings0, "blue_left", bank0, none, none, env0⟩] 0 = List.range' 1 2 ∧
    (run_trial settings0 "red_left" bank0 none none env0 0).2 =
      .ok (mk_run settings0 "red_left" bank0 none none env0 1 "red" "left") ∧
    (mk_run settings0 "red_left" bank0 none none env0 1 "red" "left").trial_id = 0 + 1 := by
  refine ⟨trial_id_allocation.1 _, run_trial_ok settings0 "red_left" bank0 none none env0 0
    "red" "left" (by decide), ?_⟩
  exact trial_id_allocation.2.2.2
    ⟨settings0, "red_left", bank0, none, none, env0⟩ 0 _
    (run_trial_ok settings0 "red_left" bank0 none none env0 0 "red" "left" (by decide))

/-- Counterexample to claim C3 as stated: the condition label
`"green_left"` decodes into two factors whose first value `"green"` is
outside `{red, blue}`, yet `run_trial` raises nothing and returns a full
trial record (the unrecognized color is silently mapped to the right
key). -/
theorem invalid_condition_cex :
    Except.isOk (run_trial settings0 "green_left" bank0 none none env0 0).2 = true ∧
    result_record_keys (run_trial settings0 "green_left" bank0 none none env0 0).2 =
      ["condition", "stim_color", "stim_position", "correct_response"] := by
  exact ⟨by decide, by decide⟩

/-- Claim C3 amended: a condition label that does not split into exactly
two `"_"`-separated parts makes `run_trial` raise the unpacking
`ValueError` and produce no trial record; but a two-part label whose first
factor is unrecognized (anything other than `"red"`, e.g. `"green"`) does
NOT raise — the trial proceeds with the unrecognized color mapped to
`settings.right_key`. -/
theorem invalid_condition_amended (settings : Settings τ) (condition : String)
    (stim_bank : List (String × σ)) (b bi : Option String) (env : TrialEnv ρ)
    (counter : ℕ) :
    ((pySplit condition).length ≠ 2 →
      (run_trial settings condition stim_bank b bi env counter).2 =
        .error .valueError) ∧
    (∀ c p, pySplit condition = [c, p] → c ≠ "red" →
      ∃ run : TrialRun σ τ ρ,
        (run_trial settings condition stim_bank b bi env counter).2 = .ok run ∧
        run.correct_response = settings.right_key) := by
  constructor
  · intro hlen
    rcases h : pySplit condition with _ | ⟨a, _ | ⟨b', _ | ⟨d, rest⟩⟩⟩ <;>
      first
      | exact absurd (by rw [h]; rfl) hlen
      | simp [run_trial, next_trial_id, h]
  · intro c p h hc
    refine ⟨_, run_trial_ok settings condition stim_bank b bi env counter c p h, ?_⟩
    rw [mk_run_correct_response, if_neg hc]

/-- Witness for C3 amended: `"redleft"` (one part) raises; `"green_left"`
proceeds with the right key. -/
theorem invalid_condition_amended_witness :
    (pySplit "redleft").length ≠ 2 ∧
    (run_trial settings0 "redleft" bank0 none none env0 0).2 = .error .valueError ∧
    pySplit "green_left" = ["green", "left"] ∧
    ("green" : String) ≠ "red" ∧
    ∃ run : TrialRun String String String,
      (run_trial settings0 "green_left" bank0 none none env0 0).2 = .ok run ∧
      run.correct_response = settings0.right_key :=
  ⟨by decide,
    (invalid_condition_amended settings0 "redleft" bank0 none none env0 0).1 (by decide),
    by decide, by decide,
    (invalid_condition_amended settings0 "green_left" bank0 none none env0 0).2
      "green" "left" (by decide) (by decide)⟩

/-- Counterexample to claim C7 as stated: the fixation phase is a
non-response phase, yet the context built for it carries the full valid
key list `["f", "j"]`, not an empty set; moreover the feedback and
inter-trial-interval phases build no context at all (only two contexts
appear in the whole trial). -/
theorem context_keys_cex :
    context_key_summaries (run_trial settings0 "red_left" bank0 none none env0 0).2 =
      [("pre_stim_fixation", ["f", "j"]), ("simon_response", ["f", "j"])] ∧
    (["f", "j"] : List String) ≠ [] := by
  exact ⟨by decide, by decide⟩

/-- Claim C7 amended: contexts are built only for the fixation and
response phases, and **both** carry the full valid key list
`settings.key_list`; the feedback and inter-trial-interval phases build no
context object. -/
theorem context_keys_amended (settings : Settings τ) (condition : String)
    (stim_bank : List (String × σ)) (b bi : Option String) (env : TrialEnv ρ)
    (counter : ℕ) (c p : String) (hsplit : pySplit condition = [c, p]) :
    ∃ run : TrialRun σ τ ρ,
      (run_trial settings condition stim_bank b bi env counter).2 = .ok run ∧
      (trace_contexts run.trace).map (fun ctx => (ctx.phase, ctx.valid_keys)) =
        [("pre_stim_fixation", settings.key_list),
         ("simon_response", settings.key_list)] :=
  ⟨_, run_trial_ok settings condition stim_bank b bi env counter c p hsplit, rfl⟩

/-- Witness for C7 amended on a concrete trial. -/
theorem context_keys_amended_witness :
    pySplit "red_left" = ["red", "left"] ∧
    ∃ run : TrialRun String String String,
      (run_trial settings0 "red_left" bank0 none none env0 0).2 = .ok run ∧
      (trace_contexts run.trace).map (fun ctx => (ctx.phase, ctx.valid_keys)) =
        [("pre_stim_fixation", settings0.key_list),
         ("simon_response", settings0.key_list)] :=
  ⟨by decide,
    context_keys_amended settings0 "red_left" bank0 none none env0 0 "red" "left"
      (by decide)⟩

/-- Claim C9: every stimulus and trigger field handed to a phase is exactly
the raw `dict.get` lookup result — when the key is absent from the stimulus
bank or trigger table, the not-found outcome (`none`) is passed through
unchanged, and the core never substitutes a placeholder value. -/
theorem lookup_propagation (settings : Settings τ) (condition : String)
    (stim_bank : List (String × σ)) (b bi : Option String) (env : TrialEnv ρ)
    (counter : ℕ) (c p : String) (hsplit : pySplit condition = [c, p]) :
    ∃ run : TrialRun σ τ ρ,
      (run_trial settings condition stim_bank b bi env counter).2 = .ok run ∧
      shown_stims run.trace = [[dictGet stim_bank "fixation"],
        [dictGet stim_bank condition],
        [(classify_feedback stim_bank settings.triggers env.response env.hit).1],
        []] ∧
      onset_triggers run.trace = [dictGet settings.triggers "fixation_onset",
        dictGet settings.triggers "stim_onset",
        (classify_feedback stim_bank settings.triggers env.response env.hit).2,
        none] ∧
      (dictGet stim_bank "fixation" = none →
        (shown_stims run.trace)[0]? = some [none]) ∧
      (dictGet stim_bank condition = none →
        (shown_stims run.trace)[1]? = some [none]) ∧
      (env.response = false → dictGet stim_bank "no_response_feedback" = none →
        (shown_stims run.trace)[2]? = some [none]) ∧
      (dictGet settings.triggers "fixation_onset" = none →
        (onset_triggers run.trace)[0]? = some none) := by
  refine ⟨_, run_trial_ok settings condition stim_bank b bi env counter c p hsplit,
    rfl, rfl, ?_, ?_, ?_, ?_⟩
  · intro h
    show some [dictGet stim_bank "fixation"] = some [none]
    rw [h]
  · intro h
    show some [dictGet stim_bank condition] = some [none]
    rw [h]
  · intro hr h
    show some [(classify_feedback stim_bank settings.triggers env.response env.hit).1] =
      some [none]
    rw [classify_feedback, hr]
    simp [h]
  · intro h
    show some (dictGet settings.triggers "fixation_onset") = some none
    rw [h]

/-- Witness for C9 with an empty stimulus bank and trigger table: every
lookup misses and every phase receives `none`. -/
theorem lookup_propagation_witness :
    pySplit "red_left" = ["red", "left"] ∧
    ∃ run : TrialRun String String String,
      (run_trial settings1 "red_left" [] none none env1 0).2 = .ok run ∧
      shown_stims run.trace = [[dictGet ([] : List (String × String)) "fixation"],
        [dictGet ([] : List (String × String)) "red_left"],
        [(classify_feedback ([] : List (String × String)) settings1.triggers
          env1.response env1.hit).1],
        []] ∧
      onset_triggers run.trace = [dictGet settings1.triggers "fixation_onset",
        dictGet settings1.triggers "stim_onset",
        (classify_feedback ([] : List (String × String)) settings1.triggers
          env1.response env1.hit).2,
        none] ∧
      (dictGet ([] : List (String × String)) "fixation" = none →
        (shown_stims run.trace)[0]? = some [none]) ∧
      (dictGet ([] : List (String × String)) "red_left" = none →
        (shown_stims run.trace)[1]? = some [none]) ∧
      (env1.response = false →
        dictGet ([] : List (String × String)) "no_response_feedback" = none →
        (shown_stims run.trace)[2]? = some [none]) ∧
      (dictGet settings1.triggers "fixation_onset" = none →
        (onset_triggers run.trace)[0]? = some none) :=
  ⟨by decide,
    lookup_propagation settings1 "red_left" [] none none env1 0 "red" "left"
      (by decide)⟩

lemma find?_overwrite (d : List (String × α)) (k k' : String) (v : α) (h : k ≠ k') :
    ((d.map fun p => if p.1 == k' then (k', v) else p).find? fun p => p.1 == k) =
      d.find? fun p => p.1 == k := by
  induction d with
  | nil => rfl
  | cons q d ih =>
    rw [List.map_cons]
    by_cases hq : (q.1 == k') = true
    · have hq' : q.1 = k' := by simpa using hq
      have h1 : (((k', v) : String × α).1 == k) = false := by simp [Ne.symm h]
      have h2 : (q.1 == k) = false := by simp [hq', Ne.symm h]
      rw [if_pos hq, List.find?_cons_of_neg _ (by simp [h1]),
        List.find?_cons_of_neg _ (by simp [h2])]
      exact ih
    · rw [if_neg hq]
      by_cases hqk : (q.1 == k) = true
      · simp only [List.find?, hqk]
      · have hqk' : (q.1 == k) = false := by simpa using hqk
        simp only [List.find?, hqk']
        exact ih

lemma dictGet_insert_ne (d : List (String × α)) (k k' : String) (v : α) (h : k ≠ k') :
    dictGet (dictInsert d k' v) k = dictGet d k := by
  unfold dictGet dictInsert
  split
  · rw [find?_overwrite d k k' v h]
  · rw [List.find?_append]
    have hnone : (([(k', v)] : List (String × α)).find? fun p => p.1 == k) = none := by
      simp [List.find?_cons, Ne.symm h]
    rw [hnone]
    cases d.find? fun p => p.1 == k <;> rfl

lemma not_mem_keys_insert (d : List (String × α)) (k k' : String) (v : α)
    (hd : k ∉ d.map Prod.fst) (h : k ≠ k') :
    k ∉ (dictInsert d k' v).map Prod.fst := by
  unfold dictInsert
  split
  · intro hmem
    rw [List.map_map] at hmem
    obtain ⟨p, hp, hpk⟩ := List.mem_map.mp hmem
    dsimp only [Function.comp] at hpk
    by_cases hq : (p.1 == k') = true
    · rw [if_pos hq] at hpk
      exact h hpk.symm
    · rw [if_neg hq] at hpk
      exact hd (List.mem_map.mpr ⟨p, hp, hpk⟩)
  · rw [List.map_append]
    intro hmem
    rcases List.mem_append.mp hmem with hm | hm
    · exact hd hm
    · simp only [List.map_cons, List.map_nil, List.mem_singleton] at hm
      exact h hm

lemma dictUpdate_cons (d : List (String × α)) (q : String × α)
    (kvs : List (String × α)) :
    dictUpdate d (q :: kvs) = dictUpdate (dictInsert d q.1 q.2) kvs := rfl

lemma dictGet_update_not_mem (d kvs : List (String × α)) (k : String)
    (h : k ∉ kvs.map Prod.fst) :
    dictGet (dictUpdate d kvs) k = dictGet d k := by
  induction kvs generalizing d with
  | nil => rfl
  | cons q kvs ih =>
    rw [dictUpdate_cons]
    have hk : k ≠ q.1 := fun hc => h (by simp [hc])
    have hk2 : k ∉ kvs.map Prod.fst := fun hc => h (by simp [hc])
    rw [ih (dictInsert d q.1 q.2) hk2, dictGet_insert_ne d k q.1 q.2 hk]

lemma not_mem_keys_update (d kvs : List (String × α)) (k : String)
    (hd : k ∉ d.map Prod.fst) (h : k ∉ kvs.map Prod.fst) :
    k ∉ (dictUpdate d kvs).map Prod.fst := by
  induction kvs generalizing d with
  | nil => exact hd
  | cons q kvs ih =>
    rw [dictUpdate_cons]
    exact ih (dictInsert d q.1 q.2)
      (not_mem_keys_insert d k q.1 q.2 hd (fun hc => h (by simp [hc])))
      (fun hc => h (by simp [hc]))

lemma extData_keys (d : List (String × ρ)) :
    (extData d).map Prod.fst = d.map Prod.fst := by
  unfold extData
  rw [List.map_map]
  rfl

lemma env_keys_split (env : TrialEnv ρ) (k : String) (hk : k ∉ env_keys env) :
    k ∉ (extData env.fixData).map Prod.fst ∧
    k ∉ (extData env.stimData).map Prod.fst ∧
    k ∉ (extData env.feedbackData).map Prod.fst ∧
    k ∉ (extData env.itiData).map Prod.fst := by
  unfold env_keys at hk
  simp only [List.map_append, List.mem_append, not_or] at hk
  obtain ⟨⟨⟨h1, h2⟩, h3⟩, h4⟩ := hk
  rw [extData_keys, extData_keys, extData_keys, extData_keys]
  exact ⟨h1, h2, h3, h4⟩

lemma mk_run_record (settings : Settings τ) (condition : String)
    (stim_bank : List (String × σ)) (b bi : Option String) (env : TrialEnv ρ)
    (tid : ℕ) (c p : String) :
    (mk_run settings condition stim_bank b bi env tid c p).record =
      dictUpdate (dictUpdate (dictUpdate (dictUpdate
        [("condition", RecVal.str condition), ("stim_color", .str c),
         ("stim_position", .str p),
         ("correct_response",
           .str (if c = "red" then settings.left_key else settings.right_key))]
        (extData env.fixData)) (extData env.stimData)) (extData env.feedbackData))
        (extData env.itiData) := rfl

/-- Counterexample to claim C8 as stated: a successful trial whose phase
results contribute no extra keys returns a record holding exactly the
condition label, the decoded factors and the correct response — there is
no `trial_id` field in the returned record. -/
theorem record_trial_id_cex :
    Except.isOk (run_trial settings0 "red_left" bank0 none none env0 0).2 = true ∧
    result_record_keys (run_trial settings0 "red_left" bank0 none none env0 0).2 =
      ["condition", "stim_color", "stim_position", "correct_response"] ∧
    "trial_id" ∉
      result_record_keys (run_trial settings0 "red_left" bank0 none none env0 0).2 := by
  exact ⟨by decide, by decide, by decide⟩

/-- Claim C8 amended: the record returned for a successful trial contains
the condition label, the decoded factors and the correct response under
their own keys (whenever the opaque phase results do not overwrite them),
together with the merged per-phase results — but **no** `trial_id` field:
the assigned trial id is only passed to the phase contexts, never stored
in the record. -/
theorem record_fields_amended (settings : Settings τ) (condition : String)
    (stim_bank : List (String × σ)) (b bi : Option String) (env : TrialEnv ρ)
    (counter : ℕ) (c p : String) (hsplit : pySplit condition = [c, p])
    (hres : ∀ k ∈ (["condition", "stim_color", "stim_position",
      "correct_response", "trial_id"] : List String), k ∉ env_keys env) :
    ∃ run : TrialRun σ τ ρ,
      (run_trial settings condition stim_bank b bi env counter).2 = .ok run ∧
      dictGet run.record "condition" = some (.str condition) ∧
      dictGet run.record "stim_color" = some (.str c) ∧
      dictGet run.record "stim_position" = some (.str p) ∧
      dictGet run.record "correct_response" = some (.str run.correct_response) ∧
      "trial_id" ∉ run.record.map Prod.fst ∧
      (trace_contexts run.trace).map (fun ctx => ctx.trial_id) =
        [counter + 1, counter + 1] := by
  refine ⟨_, run_trial_ok settings condition stim_bank b bi env counter c p hsplit,
    ?_, ?_, ?_, ?_, ?_, rfl⟩
  · obtain ⟨e1, e2, e3, e4⟩ := env_keys_split env "condition" (hres _ (by decide))
    rw [mk_run_record, dictGet_update_not_mem _ _ _ e4, dictGet_update_not_mem _ _ _ e3,
      dictGet_update_not_mem _ _ _ e2, dictGet_update_not_mem _ _ _ e1]
    rfl
  · obtain ⟨e1, e2, e3, e4⟩ := env_keys_split env "stim_color" (hres _ (by decide))
    rw [mk_run_record, dictGet_update_not_mem _ _ _ e4, dictGet_update_not_mem _ _ _ e3,
      dictGet_update_not_mem _ _ _ e2, dictGet_update_not_mem _ _ _ e1]
    rfl
  · obtain ⟨e1, e2, e3, e4⟩ := env_keys_split env "stim_position" (hres _ (by decide))
    rw [mk_run_record, dictGet_update_not_mem _ _ _ e4, dictGet_update_not_mem _ _ _ e3,
      dictGet_update_not_mem _ _ _ e2, dictGet_update_not_mem _ _ _ e1]
    rfl
  · obtain ⟨e1, e2, e3, e4⟩ :=
      env_keys_split env "correct_response" (hres _ (by decide))
    rw [mk_run_record, mk_run_correct_response, dictGet_update_not_mem _ _ _ e4,
      dictGet_update_not_mem _ _ _ e3, dictGet_update_not_mem _ _ _ e2,
      dictGet_update_not_mem _ _ _ e1]
    rfl
  · obtain ⟨e1, e2, e3, e4⟩ := env_keys_split env "trial_id" (hres _ (by decide))
    rw [mk_run_record]
    exact not_mem_keys_update _ _ _ (not_mem_keys_update _ _ _
      (not_mem_keys_update _ _ _ (not_mem_keys_update _ _ _ (by simp) e1) e2) e3) e4

/-- Witness for C8 amended on a concrete trial with empty phase results. -/
theorem record_fields_amended_witness :
    pySplit "red_left" = ["red", "left"] ∧
    (∀ k ∈ (["condition", "stim_color", "stim_position",
      "correct_response", "trial_id"] : List String), k ∉ env_keys env0) ∧
    ∃ run : TrialRun String String String,
      (run_trial settings0 "red_left" bank0 none none env0 0).2 = .ok run ∧
      dictGet run.record "condition" = some (.str "red_left") ∧
      dictGet run.record "stim_color" = some (.str "red") ∧
      dictGet run.record "stim_position" = some (.str "left") ∧
      dictGet run.record "correct_response" = some (.str run.correct_response) ∧
      "trial_id" ∉ run.record.map Prod.fst ∧
      (trace_contexts run.trace).map (fun ctx => ctx.trial_id) = [0 + 1, 0 + 1] :=
  ⟨by decide, by decide,
    record_fields_amended settings0 "red_left" bank0 none none env0 0 "red" "left"
      (by decide) (by decide)⟩

end Simon
